import Mathlib

/-!
Shallow embedding of the PSHIB tap-to-earn bot (src/bot.py): the account
table, the `skip` registration handler, the wallet-binding handler, the
dashboard view and the tap handler, together with theorems about the
claims of the specification.

Modelling conventions:
* The PostgreSQL `users` table is a `List Account` of rows; SQL `WHERE`
  clauses become Boolean row predicates, `UPDATE` becomes `List.map`
  over the rows, and `SELECT ... fetchone()` becomes `List.find?`.
* Timestamps (`datetime.utcnow()`, `tap_timestamp`) are integers counting
  seconds; `timedelta(days=1)` is `86400`.
* `REFERRAL_BONUS_PERCENTAGE = 0.10` is embedded as the rational
  `10 / 100`, and the implicit PostgreSQL cast of the float bonus back
  into the `BIGINT` column is embedded as `round : ℚ → ℤ`.  (The source
  computes the bonus in binary floating point; the rational embedding is
  an idealisation used only where claims do not depend on float rounding.)
* `handle_tap` in the source holds the global `db_lock` only around its
  initial `SELECT`; the decision and the `UPDATE`s run outside the lock.
  The handler is therefore split into an atomic snapshot phase
  (`tapRead`, the locked `SELECT`) and a write phase (`tapWrite`,
  everything after the lock is released), and the sequential handler
  `handle_tap` is their composition.
-/

/-- MAX_TAPS_PER_DAY = 10 (src/bot.py line 39). -/
def MAX_TAPS_PER_DAY : Int := 10

/-- TAP_REWARD = 1000 (src/bot.py line 40). -/
def TAP_REWARD : Int := 1000

/-- INITIAL_MINING_POWER = 100 (src/bot.py line 41). -/
def INITIAL_MINING_POWER : Int := 100

/-- TOTAL_MINING_TOKENS = 5000000000000 (src/bot.py line 42). -/
def TOTAL_MINING_TOKENS : Int := 5000000000000

/-- BONUS_TOKENS = 500000 (src/bot.py line 43). -/
def BONUS_TOKENS : Int := 500000

/-- TELEGRAM_TWITTER_BONUS = 200000 (src/bot.py line 44). -/
def TELEGRAM_TWITTER_BONUS : Int := 200000

/-- MAX_REFERRAL_USES = 9 (src/bot.py line 45). -/
def MAX_REFERRAL_USES : Int := 9

/-- REFERRAL_BONUS_PERCENTAGE = 0.10 (src/bot.py line 46), as a rational. -/
def REFERRAL_BONUS_PERCENTAGE : ℚ := 10 / 100

/-- `timedelta(days=1)` in seconds (src/bot.py line 155). -/
def ONE_DAY : Int := 86400

/-- One row of the `users` table (src/bot.py lines 51-65). -/
structure Account where
  user_id : Nat
  wallet_address : Option String
  taps : Int
  mining_power : Int
  referral_code : Option String
  referred_by : Option String
  referral_count : Int
  tap_timestamp : Int
  joined_telegram : Bool
  followed_twitter : Bool
  token_balance : Int
deriving DecidableEq, Repr

/-- The `users` table: a list of rows. -/
abbrev Store := List Account

/-- `SELECT ... FROM users WHERE user_id = %s` + `fetchone()`. -/
def findUser (store : Store) (uid : Nat) : Option Account :=
  List.find? (fun a => a.user_id == uid) store

/-- Row inserted by `skip`'s `INSERT INTO users (user_id, token_balance)`:
every column not named in the INSERT takes its schema default
(src/bot.py lines 51-65): `wallet_address` NULL, `taps` 0, `mining_power`
100, `referral_code` NULL, `referred_by` NULL, `referral_count` 0,
`tap_timestamp` CURRENT_TIMESTAMP, both booleans FALSE. -/
def newAccount (uid : Nat) (now : Int) : Account :=
  { user_id := uid
    wallet_address := none
    taps := 0
    mining_power := 100
    referral_code := none
    referred_by := none
    referral_count := 0
    tap_timestamp := now
    joined_telegram := false
    followed_twitter := false
    token_balance := BONUS_TOKENS }

/-- The `skip` handler (src/bot.py lines 89-100):
`INSERT INTO users (user_id, token_balance) VALUES (%s, %s)
ON CONFLICT (user_id) DO NOTHING` with `token_balance = BONUS_TOKENS`.
`ON CONFLICT DO NOTHING` makes the insert a no-op when a row with this
primary key already exists. -/
def skip (store : Store) (uid : Nat) (now : Int) : Store :=
  if (findUser store uid).isSome then store
  else store ++ [newAccount uid now]

/-- Outcome of `handle_wallet_address` as rendered to the user. -/
inductive BindResult
  | success
  | integrityError
  | invalidAddress
deriving DecidableEq, Repr

/-- The wallet-binding handler (src/bot.py lines 102-121).
`valid` is the result of the `Web3.isAddress` check.  The handler runs
`UPDATE users SET wallet_address = %s WHERE user_id = %s`.  The UNIQUE
constraint on `wallet_address` raises `psycopg2.IntegrityError` exactly
when the update writes the address into a row while a *different* row
already holds it; the handler then rolls back, leaving the table
unchanged.  When no row matches `user_id` the update touches zero rows
and succeeds silently. -/
def handle_wallet_address (store : Store) (uid : Nat) (addr : String)
    (valid : Bool) : Store × BindResult :=
  if !valid then (store, .invalidAddress)
  else if (findUser store uid).isSome &&
      store.any (fun a => a.user_id != uid && a.wallet_address == some addr) then
    (store, .integrityError)
  else
    (store.map (fun a =>
      if a.user_id == uid then { a with wallet_address := some addr } else a),
     .success)

/-- The dashboard view (src/bot.py lines 123-142): a read-only
`SELECT` projecting six columns; no `UPDATE` is issued, so the store is
returned unchanged together with the projection. -/
def view_dashboard (store : Store) (uid : Nat) :
    Store × Option (Option String × Int × Int × Int × Bool × Bool) :=
  (store,
   (findUser store uid).map (fun a =>
     (a.wallet_address, a.mining_power, a.token_balance,
      a.referral_count, a.joined_telegram, a.followed_twitter)))

/-- Outcome of `handle_tap` as rendered to the user. -/
inductive TapResult
  | tapped (reward : Int)
  | dailyLimitReached
  | notRegistered
deriving DecidableEq, Repr

/-- The snapshot phase of `handle_tap` (src/bot.py lines 147-149): the
only part executed while holding `db_lock` — a single
`SELECT taps, tap_timestamp, mining_power ... WHERE user_id = %s`. -/
def tapRead (store : Store) (uid : Nat) : Option Account :=
  findUser store uid

/-- The eligibility test of src/bot.py line 155:
`taps < MAX_TAPS_PER_DAY or current_time - tap_timestamp > timedelta(days=1)`,
evaluated on the snapshot. -/
def tapEligible (u : Account) (now : Int) : Prop :=
  u.taps < MAX_TAPS_PER_DAY ∨ now - u.tap_timestamp > ONE_DAY

instance (u : Account) (now : Int) : Decidable (tapEligible u now) := by
  unfold tapEligible; infer_instance

/-- Referral bonus written by the `UPDATE ... SET token_balance =
token_balance + %s WHERE referral_code = %s` (src/bot.py lines 169-172):
`new_tokens * REFERRAL_BONUS_PERCENTAGE`, cast back to the BIGINT column
by rounding. -/
def referrerBonus (new_tokens : Int) : Int :=
  round ((new_tokens : ℚ) * REFERRAL_BONUS_PERCENTAGE)

/-- Effect of `UPDATE users SET taps = %s, tap_timestamp = %s,
token_balance = token_balance + %s WHERE user_id = %s`
(src/bot.py lines 159-160) on a single row. -/
def tapUpdateRow (uid : Nat) (new_taps now new_tokens : Int) (a : Account) :
    Account :=
  if a.user_id == uid then
    { a with taps := new_taps, tap_timestamp := now,
             token_balance := a.token_balance + new_tokens }
  else a

/-- Effect of `UPDATE users SET token_balance = token_balance + %s
WHERE referral_code = %s` (src/bot.py lines 171-172) on a single row. -/
def bonusUpdateRow (code : String) (bonus : Int) (a : Account) : Account :=
  if a.referral_code == some code then
    { a with token_balance := a.token_balance + bonus }
  else a

/-- The write phase of `handle_tap` (src/bot.py lines 151-182): runs
after `db_lock` has been released, deciding on the snapshot `u`.
On an eligible snapshot it commits
`UPDATE users SET taps = %s, tap_timestamp = %s,
token_balance = token_balance + %s WHERE user_id = %s`
with `new_taps = taps + 1 if taps < MAX_TAPS_PER_DAY else 1` and
`new_tokens = TAP_REWARD * mining_power`, then re-reads `referred_by`
(src/bot.py lines 165-166) and, when set, commits the referrer credit
`UPDATE users SET token_balance = token_balance + %s WHERE referral_code = %s`
as a second, separate commit. -/
def tapWrite (store : Store) (uid : Nat) (now : Int) (u : Account) :
    Store × TapResult :=
  if tapEligible u now then
    let new_taps : Int := if u.taps < MAX_TAPS_PER_DAY then u.taps + 1 else 1
    let new_tokens : Int := TAP_REWARD * u.mining_power
    let store1 : Store := store.map (tapUpdateRow uid new_taps now new_tokens)
    match (findUser store1 uid).bind (fun a => a.referred_by) with
    | some code =>
        (store1.map (bonusUpdateRow code (referrerBonus new_tokens)),
         .tapped new_tokens)
    | none => (store1, .tapped new_tokens)
  else (store, .dailyLimitReached)

/-- The tap handler (src/bot.py lines 144-182), sequentially: the locked
snapshot followed immediately by the write phase.  A missing row yields
the "not registered" reply. -/
def handle_tap (store : Store) (uid : Nat) (now : Int) : Store × TapResult :=
  match tapRead store uid with
  | none => (store, .notRegistered)
  | some u => tapWrite store uid now u

/-- Repeated invocation of the tap handler by the same user at the given
sequence of times, collecting the rendered results. -/
def tapRun (store : Store) (uid : Nat) : List Int → Store × List TapResult
  | [] => (store, [])
  | t :: ts =>
      ((tapRun (handle_tap store uid t).1 uid ts).1,
       (handle_tap store uid t).2 :: (tapRun (handle_tap store uid t).1 uid ts).2)

/-! ### Concrete sample rows, used to instantiate theorems -/

/-- A freshly registered account (all schema defaults, skip bonus). -/
def acctFresh : Account :=
  { user_id := 1, wallet_address := none, taps := 0, mining_power := 100,
    referral_code := none, referred_by := none, referral_count := 0,
    tap_timestamp := 0, joined_telegram := false, followed_twitter := false,
    token_balance := 500000 }

/-- An account at the daily cap. -/
def acctCapped : Account := { acctFresh with taps := 10 }

/-- An account mid-window with 5 taps used. -/
def acctMid : Account := { acctFresh with taps := 5 }

/-- An account one tap below the daily cap, balance zero. -/
def acctNine : Account := { acctFresh with taps := 9, token_balance := 0 }

/-- A second user's account, holding a bound wallet. -/
def acctOther : Account :=
  { acctFresh with user_id := 2, wallet_address := some "0xB" }

/-- A referrer account owning referral code "R". -/
def acctReferrer : Account :=
  { acctFresh with user_id := 3, referral_code := some "R" }

/-- A referee account referred by code "R". -/
def acctReferee : Account :=
  { acctFresh with user_id := 4, referred_by := some "R" }

/-! ### Helper lemmas -/

theorem tapUpdateRow_user_id (uid : Nat) (nt now tok : Int) (a : Account) :
    (tapUpdateRow uid nt now tok a).user_id = a.user_id := by
  unfold tapUpdateRow; split <;> rfl

theorem bonusUpdateRow_user_id (code : String) (b : Int) (a : Account) :
    (bonusUpdateRow code b a).user_id = a.user_id := by
  unfold bonusUpdateRow; split <;> rfl

theorem bonusUpdateRow_referral_code (code : String) (b : Int) (a : Account) :
    (bonusUpdateRow code b a).referral_code = a.referral_code := by
  unfold bonusUpdateRow; split <;> rfl

/-- `find?` over a user-id-preserving row update commutes with the update. -/
theorem findUser_map (g : Account → Account)
    (hg : ∀ a, (g a).user_id = a.user_id) (store : Store) (uid : Nat) :
    findUser (store.map g) uid = (findUser store uid).map g := by
  unfold findUser
  induction store with
  | nil => rfl
  | cons a l ih =>
    rw [List.map_cons, List.find?_cons, List.find?_cons]
    have hpg : ((g a).user_id == uid) = (a.user_id == uid) := by rw [hg]
    rw [hpg]
    cases h : (a.user_id == uid) <;> simp [h, ih]

theorem findUser_mem {store : Store} {uid : Nat} {u : Account}
    (hu : findUser store uid = some u) : u ∈ store := by
  unfold findUser at hu
  exact List.mem_of_find?_eq_some hu

theorem findUser_user_id {store : Store} {uid : Nat} {u : Account}
    (hu : findUser store uid = some u) : (u.user_id == uid) = true := by
  unfold findUser at hu
  have h := List.find?_some hu
  exact h

/-- The write phase rejects exactly when the snapshot is ineligible,
leaving the table untouched. -/
theorem tapWrite_ineligible (store : Store) (uid : Nat) (now : Int)
    (u : Account) (h : ¬ tapEligible u now) :
    tapWrite store uid now u = (store, .dailyLimitReached) := by
  simp [tapWrite, h]

/-- The write phase on an eligible snapshot always reports
`Tapped(TAP_REWARD * mining_power)`. -/
theorem tapWrite_snd_eligible (store : Store) (uid : Nat) (now : Int)
    (u : Account) (h : tapEligible u now) :
    (tapWrite store uid now u).2 = .tapped (TAP_REWARD * u.mining_power) := by
  simp only [tapWrite, if_pos h]
  split <;> rfl

theorem tapUpdateRow_self (uid : Nat) (nt now tok : Int) (u : Account)
    (h : (u.user_id == uid) = true) :
    tapUpdateRow uid nt now tok u =
      { u with taps := nt, tap_timestamp := now,
               token_balance := u.token_balance + tok } := by
  simp [tapUpdateRow, h]

theorem tapUpdateRow_other (uid : Nat) (nt now tok : Int) (a : Account)
    (h : a.user_id ≠ uid) :
    tapUpdateRow uid nt now tok a = a := by
  simp [tapUpdateRow, h]

theorem bonusUpdateRow_pos (code : String) (b : Int) (a : Account)
    (h : a.referral_code = some code) :
    bonusUpdateRow code b a = { a with token_balance := a.token_balance + b } := by
  simp [bonusUpdateRow, h]

theorem bonusUpdateRow_neg (code : String) (b : Int) (a : Account)
    (h : a.referral_code ≠ some code) :
    bonusUpdateRow code b a = a := by
  simp [bonusUpdateRow, h]

/-- The table produced by an eligible tap, as a function of the snapshot:
first the tapper's row update, then (when the tapper has a referrer code
on file) the referrer credit. -/
def tapEffect (store : Store) (uid : Nat) (now : Int) (u : Account) : Store :=
  let store1 := store.map (tapUpdateRow uid
    (if u.taps < MAX_TAPS_PER_DAY then u.taps + 1 else 1) now
    (TAP_REWARD * u.mining_power))
  match u.referred_by with
  | some code =>
      store1.map (bonusUpdateRow code (referrerBonus (TAP_REWARD * u.mining_power)))
  | none => store1

/-- An eligible tap by a registered user commits `tapEffect` and reports
the reward. -/
theorem handle_tap_eligible (store : Store) (uid : Nat) (now : Int)
    (u : Account) (hu : findUser store uid = some u) (h : tapEligible u now) :
    handle_tap store uid now =
      (tapEffect store uid now u, .tapped (TAP_REWARD * u.mining_power)) := by
  unfold handle_tap tapRead
  rw [hu]
  dsimp only
  unfold tapWrite tapEffect
  rw [if_pos h]
  dsimp only
  have hscrut :
      (findUser (store.map (tapUpdateRow uid
          (if u.taps < MAX_TAPS_PER_DAY then u.taps + 1 else 1) now
          (TAP_REWARD * u.mining_power))) uid).bind (fun a => a.referred_by)
        = u.referred_by := by
    rw [findUser_map _ (tapUpdateRow_user_id uid _ _ _) store uid, hu]
    show (tapUpdateRow uid _ _ _ u).referred_by = u.referred_by
    unfold tapUpdateRow
    split <;> rfl
  rw [hscrut]
  cases u.referred_by <;> rfl

/-- The tapper's own row after an eligible tap: taps incremented below
the cap and reset to 1 at the cap, timestamp set to now, balance
credited the reward — plus the referrer bonus exactly when the tapper is
its own referrer. -/
theorem tapEffect_tapper (store : Store) (uid : Nat) (now : Int)
    (u : Account) (hu : findUser store uid = some u) :
    findUser (tapEffect store uid now u) uid = some
      { u with taps := (if u.taps < MAX_TAPS_PER_DAY then u.taps + 1 else 1),
               tap_timestamp := now,
               token_balance := u.token_balance + TAP_REWARD * u.mining_power +
                 (if u.referred_by ≠ none ∧ u.referral_code = u.referred_by
                  then referrerBonus (TAP_REWARD * u.mining_power) else 0) } := by
  have hself := findUser_user_id hu
  unfold tapEffect
  dsimp only
  cases hr : u.referred_by with
  | none =>
    rw [findUser_map _ (tapUpdateRow_user_id uid _ _ _) store uid, hu,
        Option.map_some']
    rw [tapUpdateRow_self uid _ now _ u hself]
    simp [hr]
  | some code =>
    rw [findUser_map _ (bonusUpdateRow_user_id code _) _ uid,
        findUser_map _ (tapUpdateRow_user_id uid _ _ _) store uid, hu,
        Option.map_some', Option.map_some']
    rw [tapUpdateRow_self uid _ now _ u hself]
    by_cases hc : u.referral_code = some code
    · rw [bonusUpdateRow_pos _ _ _ (by simpa using hc)]
      simp [hr, hc]
    · rw [bonusUpdateRow_neg _ _ _ (by simpa using hc)]
      simp [hr, hc]

/-! ### Claim theorems -/

/-- C1: for every registered account, a tap request succeeds if and only
if `taps < MAX_TAPS_PER_DAY` (10) or `now - tap_timestamp` exceeds 24
hours at the time of the request; when neither holds the tap is rejected
with DailyLimitReached and the table is unchanged. -/
theorem tap_success_iff_eligible (store : Store) (uid : Nat) (now : Int)
    (u : Account) (hu : findUser store uid = some u) :
    ((∃ r, (handle_tap store uid now).2 = TapResult.tapped r) ↔
      (u.taps < 10 ∨ now - u.tap_timestamp > 86400)) ∧
    (¬ (u.taps < 10 ∨ now - u.tap_timestamp > 86400) →
      handle_tap store uid now = (store, TapResult.dailyLimitReached)) := by
  have hel : tapEligible u now ↔ (u.taps < 10 ∨ now - u.tap_timestamp > 86400) :=
    Iff.rfl
  by_cases h : tapEligible u now
  · refine ⟨⟨fun _ => hel.mp h, fun _ => ?_⟩, fun hc => absurd (hel.mp h) hc⟩
    exact ⟨TAP_REWARD * u.mining_power,
      by rw [handle_tap_eligible store uid now u hu h]⟩
  · have hreject : handle_tap store uid now = (store, TapResult.dailyLimitReached) := by
      unfold handle_tap tapRead
      rw [hu]
      dsimp only
      exact tapWrite_ineligible store uid now u h
    refine ⟨⟨fun hex => ?_, fun hc => absurd (hel.mpr hc) h⟩, fun _ => hreject⟩
    obtain ⟨r, hr⟩ := hex
    rw [hreject] at hr
    simp at hr

/-- Witness for C1: a capped account inside its 24h window. -/
theorem tap_success_iff_eligible_witness :
    findUser [acctCapped] 1 = some acctCapped ∧
    (((∃ r, (handle_tap [acctCapped] 1 100).2 = TapResult.tapped r) ↔
       (acctCapped.taps < 10 ∨ (100 : Int) - acctCapped.tap_timestamp > 86400)) ∧
     (¬ (acctCapped.taps < 10 ∨ (100 : Int) - acctCapped.tap_timestamp > 86400) →
       handle_tap [acctCapped] 1 100 = ([acctCapped], TapResult.dailyLimitReached))) :=
  ⟨by decide, tap_success_iff_eligible [acctCapped] 1 100 acctCapped (by decide)⟩

/-- C2 counterexample: an account with `taps = 5` and a tap_timestamp
more than 24h in the past taps again.  The tap is allowed and the window
has expired, so the claim says the counter resets to 1 — but the code
computes `taps + 1 if taps < MAX_TAPS_PER_DAY else 1` and leaves 6. -/
theorem tap_reset_counterexample :
    ((100000 : Int) - acctMid.tap_timestamp > 86400) ∧
    (handle_tap [acctMid] 1 100000).2 = TapResult.tapped 100000 ∧
    findUser (handle_tap [acctMid] 1 100000).1 1 =
      some { acctMid with taps := 6, tap_timestamp := 100000,
                          token_balance := 600000 } := by
  decide

/-- C2 (amended): on every allowed tap the counter increments by 1 when
`taps < MAX_TAPS_PER_DAY`, even if the 24h window has expired, and
resets to 1 otherwise; in particular, for an account with
`tap_timestamp` more than 24h in the past and `taps = MAX_TAPS_PER_DAY`
the next tap succeeds and leaves `taps = 1`. -/
theorem tap_counter_update (store : Store) (uid : Nat) (now : Int)
    (u : Account) (hu : findUser store uid = some u)
    (helig : u.taps < 10 ∨ now - u.tap_timestamp > 86400) :
    ∃ u', findUser (handle_tap store uid now).1 uid = some u' ∧
      u'.taps = (if u.taps < 10 then u.taps + 1 else 1) ∧
      (handle_tap store uid now).2 = TapResult.tapped (1000 * u.mining_power) ∧
      (u.taps = 10 → u'.taps = 1) := by
  have h : tapEligible u now := helig
  rw [handle_tap_eligible store uid now u hu h]
  refine ⟨_, tapEffect_tapper store uid now u hu, rfl, rfl, ?_⟩
  intro h10
  simp [MAX_TAPS_PER_DAY, h10]

/-- Witness for C2: a capped account whose window has expired. -/
theorem tap_counter_update_witness :
    (findUser [acctCapped] 1 = some acctCapped ∧
     (acctCapped.taps < 10 ∨ (100000 : Int) - acctCapped.tap_timestamp > 86400)) ∧
    (∃ u', findUser (handle_tap [acctCapped] 1 100000).1 1 = some u' ∧
      u'.taps = (if acctCapped.taps < 10 then acctCapped.taps + 1 else 1) ∧
      (handle_tap [acctCapped] 1 100000).2 =
        TapResult.tapped (1000 * acctCapped.mining_power) ∧
      (acctCapped.taps = 10 → u'.taps = 1)) :=
  ⟨⟨by decide, by decide⟩,
   tap_counter_update [acctCapped] 1 100000 acctCapped (by decide) (by decide)⟩

/-- C4: a tap request that is not eligible, or made by a user_id with no
account, mutates no account state at all — the exact table is returned —
with result DailyLimitReached respectively NotRegistered. -/
theorem tap_reject_no_mutation (store : Store) (uid : Nat) (now : Int) :
    (findUser store uid = none →
      handle_tap store uid now = (store, TapResult.notRegistered)) ∧
    (∀ u, findUser store uid = some u →
      ¬ (u.taps < 10 ∨ now - u.tap_timestamp > 86400) →
      handle_tap store uid now = (store, TapResult.dailyLimitReached)) := by
  constructor
  · intro h
    unfold handle_tap tapRead
    rw [h]
  · intro u hu hne
    unfold handle_tap tapRead
    rw [hu]
    dsimp only
    exact tapWrite_ineligible store uid now u (fun hc => hne hc)

/-- Witness for C4: an unknown user over an empty table, and a capped
account inside its window. -/
theorem tap_reject_no_mutation_witness :
    handle_tap [] 1 0 = ([], TapResult.notRegistered) ∧
    handle_tap [acctCapped] 1 100 = ([acctCapped], TapResult.dailyLimitReached) :=
  ⟨(tap_reject_no_mutation [] 1 0).1 (by decide),
   (tap_reject_no_mutation [acctCapped] 1 100).2 acctCapped (by decide) (by decide)⟩

/-- C8: `db_lock` in `handle_tap` covers only the snapshot SELECT, not
the decision or the UPDATE, so two concurrent taps on an account with
`taps = MAX_TAPS_PER_DAY - 1` can both read the same snapshot before
either write runs.  In the interleaving read1, read2, write1, write2 —
allowed because each write happens outside the lock — both requests
succeed and the reward is credited twice, contradicting the claim that
at most one can succeed. -/
theorem tap_race_both_succeed :
    tapRead [acctNine] 1 = some acctNine ∧
    (tapWrite [acctNine] 1 100 acctNine).2 = TapResult.tapped 100000 ∧
    (tapWrite (tapWrite [acctNine] 1 100 acctNine).1 1 100 acctNine).2 =
      TapResult.tapped 100000 ∧
    findUser (tapWrite (tapWrite [acctNine] 1 100 acctNine).1 1 100 acctNine).1 1 =
      some { acctNine with taps := 10, tap_timestamp := 100,
                           token_balance := 200000 } := by
  decide

/-- A tap sequence in which every result is a success accumulates one
reward per tap on the tapper's balance and preserves the fields the tap
handler never writes (tapper not crediting itself via referral). -/
theorem tapRun_balance (uid : Nat) :
    ∀ (times : List Int) (store : Store) (u : Account),
      findUser store uid = some u →
      ¬ (u.referred_by ≠ none ∧ u.referral_code = u.referred_by) →
      (∀ r ∈ (tapRun store uid times).2,
         r ≠ TapResult.dailyLimitReached ∧ r ≠ TapResult.notRegistered) →
      ∃ u', findUser (tapRun store uid times).1 uid = some u' ∧
        u'.token_balance =
          u.token_balance + (times.length : Int) * (1000 * u.mining_power) ∧
        u'.mining_power = u.mining_power ∧
        u'.referred_by = u.referred_by ∧
        u'.referral_code = u.referral_code := by
  intro times
  induction times with
  | nil =>
    intro store u hu _ _
    exact ⟨u, hu, by simp, rfl, rfl, rfl⟩
  | cons t ts ih =>
    intro store u hu hself hall
    have hmem : (handle_tap store uid t).2 ∈ (tapRun store uid (t :: ts)).2 := by
      simp only [tapRun]
      exact List.mem_cons_self _ _
    have hhead := hall _ hmem
    have helig : tapEligible u t := by
      by_contra hne
      have hrej : handle_tap store uid t = (store, TapResult.dailyLimitReached) := by
        unfold handle_tap tapRead
        rw [hu]
        dsimp only
        exact tapWrite_ineligible store uid t u hne
      exact hhead.1 (by rw [hrej])
    have hstep := handle_tap_eligible store uid t u hu helig
    have htapper := tapEffect_tapper store uid t u hu
    rw [if_neg hself, add_zero] at htapper
    have hrun : tapRun store uid (t :: ts) =
        ((tapRun (tapEffect store uid t u) uid ts).1,
         TapResult.tapped (TAP_REWARD * u.mining_power) ::
           (tapRun (tapEffect store uid t u) uid ts).2) := by
      simp only [tapRun, hstep]
    have hall1 : ∀ r ∈ (tapRun (tapEffect store uid t u) uid ts).2,
        r ≠ TapResult.dailyLimitReached ∧ r ≠ TapResult.notRegistered := by
      intro r hrmem
      apply hall
      rw [hrun]
      exact List.mem_cons_of_mem _ hrmem
    obtain ⟨u', hfind, hbal, hmp, hrb, hrc⟩ :=
      ih (tapEffect store uid t u) _ htapper hself hall1
    refine ⟨u', ?_, ?_, hmp, hrb, hrc⟩
    · rw [hrun]
      exact hfind
    · rw [hbal]
      simp only [TAP_REWARD, List.length_cons]
      push_cast
      ring

/-- C3: every successful tap by an account with mining power m adds
exactly TAP_REWARD * m = 1000 * m to that account's balance and sets
tap_timestamp to the current time; after N successful taps (the account
receiving no referral credits, i.e. not its own referrer) the balance
has grown by exactly N * 1000 * m. -/
theorem tap_reward_accumulation (store : Store) (uid : Nat) (now : Int)
    (u : Account) (times : List Int)
    (hu : findUser store uid = some u)
    (hself : ¬ (u.referred_by ≠ none ∧ u.referral_code = u.referred_by)) :
    ((u.taps < 10 ∨ now - u.tap_timestamp > 86400) →
      ∃ u', findUser (handle_tap store uid now).1 uid = some u' ∧
        u'.token_balance = u.token_balance + 1000 * u.mining_power ∧
        u'.tap_timestamp = now ∧
        (handle_tap store uid now).2 = TapResult.tapped (1000 * u.mining_power)) ∧
    ((∀ r ∈ (tapRun store uid times).2,
        r ≠ TapResult.dailyLimitReached ∧ r ≠ TapResult.notRegistered) →
      ∃ u', findUser (tapRun store uid times).1 uid = some u' ∧
        u'.token_balance =
          u.token_balance + (times.length : Int) * (1000 * u.mining_power)) := by
  constructor
  · intro helig
    have h : tapEligible u now := helig
    rw [handle_tap_eligible store uid now u hu h]
    have htapper := tapEffect_tapper store uid now u hu
    rw [if_neg hself, add_zero] at htapper
    exact ⟨_, htapper, rfl, rfl, rfl⟩
  · intro hall
    obtain ⟨u', hfind, hbal, _, _, _⟩ :=
      tapRun_balance uid times store u hu hself hall
    exact ⟨u', hfind, hbal⟩

/-- Witness for C3: a fresh account tapping twice inside its window. -/
theorem tap_reward_accumulation_witness :
    ((acctFresh.taps < 10 ∨ (100 : Int) - acctFresh.tap_timestamp > 86400) →
      ∃ u', findUser (handle_tap [acctFresh] 1 100).1 1 = some u' ∧
        u'.token_balance = acctFresh.token_balance + 1000 * acctFresh.mining_power ∧
        u'.tap_timestamp = 100 ∧
        (handle_tap [acctFresh] 1 100).2 =
          TapResult.tapped (1000 * acctFresh.mining_power)) ∧
    ((∀ r ∈ (tapRun [acctFresh] 1 [100, 200]).2,
        r ≠ TapResult.dailyLimitReached ∧ r ≠ TapResult.notRegistered) →
      ∃ u', findUser (tapRun [acctFresh] 1 [100, 200]).1 1 = some u' ∧
        u'.token_balance = acctFresh.token_balance +
          (([100, 200] : List Int).length : Int) * (1000 * acctFresh.mining_power)) :=
  tap_reward_accumulation [acctFresh] 1 100 acctFresh [100, 200]
    (by decide) (by decide)

theorem findUser_append_left {store : Store} {uid : Nat} {u : Account}
    (hu : findUser store uid = some u) (l : Store) :
    findUser (store ++ l) uid = some u := by
  unfold findUser at *
  rw [List.find?_append, hu]
  rfl

theorem findUser_append_none {store : Store} {uid : Nat}
    (h : findUser store uid = none) (l : Store) :
    findUser (store ++ l) uid = findUser l uid := by
  unfold findUser at *
  rw [List.find?_append, h]
  rfl

theorem findUser_newAccount (uid : Nat) (now : Int) :
    findUser [newAccount uid now] uid = some (newAccount uid now) := by
  unfold findUser newAccount
  simp [List.find?_cons]

theorem skip_of_found (store : Store) (uid : Nat) (now : Int)
    (h : (findUser store uid).isSome = true) :
    skip store uid now = store := by
  simp [skip, h]

/-- C6: Register/Skip for a user with no account creates exactly one
account with token_balance = BONUS_TOKENS = 500,000, mining_power =
INITIAL_MINING_POWER = 100 and wallet_address null; invoking it again for
the same user is a no-op — not an error — leaving everything unchanged. -/
theorem skip_register_idempotent (store : Store) (uid : Nat) (now now' : Int) :
    (findUser store uid = none →
      findUser (skip store uid now) uid = some (newAccount uid now) ∧
      (newAccount uid now).token_balance = 500000 ∧
      (newAccount uid now).mining_power = 100 ∧
      (newAccount uid now).wallet_address = none ∧
      ((skip store uid now).filter (fun a => a.user_id == uid)).length = 1) ∧
    (∀ u, findUser store uid = some u → skip store uid now = store) ∧
    skip (skip store uid now) uid now' = skip store uid now := by
  refine ⟨?_, ?_, ?_⟩
  · intro h
    have hskip : skip store uid now = store ++ [newAccount uid now] := by
      simp [skip, h]
    refine ⟨?_, rfl, rfl, rfl, ?_⟩
    · rw [hskip, findUser_append_none h, findUser_newAccount]
    · rw [hskip, List.filter_append]
      have hnil : store.filter (fun a => a.user_id == uid) = [] := by
        rw [List.filter_eq_nil_iff]
        intro a ha
        exact (List.find?_eq_none.mp h) a ha
      rw [hnil]
      simp [newAccount]
  · intro u hu
    simp [skip, hu]
  · by_cases hc : (findUser store uid).isSome
    · rw [skip_of_found store uid now hc]
      exact skip_of_found store uid now' hc
    · have h : findUser store uid = none := by
        cases hfind : findUser store uid with
        | none => rfl
        | some u => rw [hfind] at hc; simp at hc
      have hskip : skip store uid now = store ++ [newAccount uid now] := by
        simp [skip, h]
      have hfound : findUser (skip store uid now) uid = some (newAccount uid now) := by
        rw [hskip, findUser_append_none h, findUser_newAccount]
      have hsome : (findUser (skip store uid now) uid).isSome = true := by
        rw [hfound]
        rfl
      exact skip_of_found (skip store uid now) uid now' hsome

/-- Witness for C6: registering user 1 over an empty table, twice, and
re-registering an existing account. -/
theorem skip_register_idempotent_witness :
    (findUser (skip [] 1 5) 1 = some (newAccount 1 5) ∧
     (newAccount 1 5).token_balance = 500000 ∧
     (newAccount 1 5).mining_power = 100 ∧
     (newAccount 1 5).wallet_address = none ∧
     ((skip [] 1 5).filter (fun a => a.user_id == 1)).length = 1) ∧
    skip (skip [] 1 5) 1 7 = skip [] 1 5 ∧
    skip [acctFresh] 1 5 = [acctFresh] :=
  ⟨(skip_register_idempotent [] 1 5 7).1 (by decide),
   (skip_register_idempotent [] 1 5 7).2.2,
   (skip_register_idempotent [acctFresh] 1 5 7).2.1 acctFresh (by decide)⟩

theorem forall₂_map_self {α : Type} {R : α → α → Prop} (f : α → α) :
    ∀ (l : List α), (∀ a ∈ l, R a (f a)) → List.Forall₂ R l (l.map f)
  | [], _ => List.Forall₂.nil
  | a :: l, h =>
      List.Forall₂.cons (h a (List.mem_cons_self a l))
        (forall₂_map_self f l (fun b hb => h b (List.mem_cons_of_mem a hb)))

/-- C7 counterexample: binding a wallet for a user_id with no account
does not fail with NotFound — the UPDATE matches zero rows and the
handler replies "Wallet connected successfully!", leaving the table
unchanged. -/
theorem wallet_bind_unregistered_counterexample :
    findUser [acctOther] 1 = none ∧
    handle_wallet_address [acctOther] 1 "0xA" true =
      ([acctOther], BindResult.success) := by
  decide

/-- C7 (amended): binding an address already held by a different account
fails with the uniqueness IntegrityError (DuplicateWallet) and leaves the
whole table — in particular the caller's account — unchanged; binding for
a user_id with no account is a silent success that changes nothing (not a
NotFound error); on success it sets wallet_address and changes no other
field of any account, in particular not token_balance. -/
theorem wallet_bind_spec (store : Store) (uid : Nat) (addr : String) :
    (∀ u, findUser store uid = some u →
      (∃ b ∈ store, b.user_id ≠ uid ∧ b.wallet_address = some addr) →
      handle_wallet_address store uid addr true = (store, BindResult.integrityError)) ∧
    (findUser store uid = none →
      handle_wallet_address store uid addr true = (store, BindResult.success)) ∧
    ((¬ ∃ b ∈ store, b.user_id ≠ uid ∧ b.wallet_address = some addr) →
      (handle_wallet_address store uid addr true).2 = BindResult.success ∧
      List.Forall₂ (fun a a' : Account =>
          a'.user_id = a.user_id ∧
          a'.taps = a.taps ∧
          a'.mining_power = a.mining_power ∧
          a'.referral_code = a.referral_code ∧
          a'.referred_by = a.referred_by ∧
          a'.referral_count = a.referral_count ∧
          a'.tap_timestamp = a.tap_timestamp ∧
          a'.joined_telegram = a.joined_telegram ∧
          a'.followed_twitter = a.followed_twitter ∧
          a'.token_balance = a.token_balance ∧
          (a.user_id = uid → a'.wallet_address = some addr) ∧
          (a.user_id ≠ uid → a' = a))
        store (handle_wallet_address store uid addr true).1) := by
  refine ⟨?_, ?_, ?_⟩
  · intro u hu hex
    have hsome : (findUser store uid).isSome = true := by rw [hu]; rfl
    have hany : store.any
        (fun a => a.user_id != uid && a.wallet_address == some addr) = true := by
      rw [List.any_eq_true]
      obtain ⟨b, hbmem, hbne, hbaddr⟩ := hex
      exact ⟨b, hbmem, by rw [Bool.and_eq_true, bne_iff_ne, beq_iff_eq]
                          exact ⟨hbne, hbaddr⟩⟩
    simp [handle_wallet_address, hsome, hany]
  · intro h
    have hsome : (findUser store uid).isSome = false := by rw [h]; rfl
    have hid : ∀ a ∈ store, (a.user_id == uid) = false := by
      intro a ha
      have := (List.find?_eq_none.mp h) a ha
      simpa using this
    have hmap : store.map (fun a =>
        if a.user_id == uid then { a with wallet_address := some addr } else a)
          = store := by
      have : store.map (fun a =>
          if a.user_id == uid then { a with wallet_address := some addr } else a)
            = store.map id := by
        apply List.map_congr_left
        intro a ha
        simp [hid a ha]
      rw [this, List.map_id]
    have hred : handle_wallet_address store uid addr true =
        (store.map (fun a =>
          if a.user_id == uid then { a with wallet_address := some addr } else a),
         BindResult.success) := by
      unfold handle_wallet_address
      rw [hsome]
      rfl
    rw [hred, hmap]
  · intro hnodup
    have hany : store.any
        (fun a => a.user_id != uid && a.wallet_address == some addr) = false := by
      rw [Bool.eq_false_iff]
      intro htrue
      obtain ⟨b, hbmem, hbp⟩ := List.any_eq_true.mp htrue
      rw [Bool.and_eq_true, bne_iff_ne, beq_iff_eq] at hbp
      exact hnodup ⟨b, hbmem, hbp.1, hbp.2⟩
    have heq : handle_wallet_address store uid addr true =
        (store.map (fun a =>
          if a.user_id == uid then { a with wallet_address := some addr } else a),
         BindResult.success) := by
      simp [handle_wallet_address, hany]
    rw [heq]
    refine ⟨rfl, ?_⟩
    apply forall₂_map_self
    intro a _
    by_cases hu : a.user_id = uid
    · simp [hu]
    · simp [hu]

/-- Witness for C7: a two-row table; user 1 binds the address user 2
already holds (IntegrityError), user 5 is unregistered (silent success),
and user 1 binds a free address (success, only wallet_address written). -/
theorem wallet_bind_spec_witness :
    handle_wallet_address [acctFresh, acctOther] 1 "0xB" true =
      ([acctFresh, acctOther], BindResult.integrityError) ∧
    handle_wallet_address [acctFresh, acctOther] 5 "0xC" true =
      ([acctFresh, acctOther], BindResult.success) ∧
    ((handle_wallet_address [acctFresh, acctOther] 1 "0xA" true).2 =
       BindResult.success ∧
     List.Forall₂ (fun a a' : Account =>
         a'.user_id = a.user_id ∧
         a'.taps = a.taps ∧
         a'.mining_power = a.mining_power ∧
         a'.referral_code = a.referral_code ∧
         a'.referred_by = a.referred_by ∧
         a'.referral_count = a.referral_count ∧
         a'.tap_timestamp = a.tap_timestamp ∧
         a'.joined_telegram = a.joined_telegram ∧
         a'.followed_twitter = a.followed_twitter ∧
         a'.token_balance = a.token_balance ∧
         (a.user_id = 1 → a'.wallet_address = some "0xA") ∧
         (a.user_id ≠ 1 → a' = a))
       [acctFresh, acctOther]
       (handle_wallet_address [acctFresh, acctOther] 1 "0xA" true).1) :=
  ⟨(wallet_bind_spec [acctFresh, acctOther] 1 "0xB").1 acctFresh (by decide)
     ⟨acctOther, by decide, by decide, by decide⟩,
   (wallet_bind_spec [acctFresh, acctOther] 5 "0xC").2.1 (by decide),
   (wallet_bind_spec [acctFresh, acctOther] 1 "0xA").2.2 (by decide)⟩

theorem referrerBonus_nonneg (r : Int) (hr : 0 ≤ r) : 0 ≤ referrerBonus r := by
  unfold referrerBonus
  have h1 : (0:ℚ) ≤ (r:ℚ) * REFERRAL_BONUS_PERCENTAGE := by
    apply mul_nonneg
    · exact_mod_cast hr
    · norm_num [REFERRAL_BONUS_PERCENTAGE]
  rw [round_eq, Int.floor_nonneg]
  linarith

/-- An eligible tap never lowers any row's balance when the tapper's
mining power is non-negative. -/
theorem tapEffect_balance_mono (store : Store) (uid : Nat) (now : Int)
    (u b : Account) (uid' : Nat) (hmpu : (0:Int) ≤ u.mining_power)
    (hb : findUser store uid' = some b) :
    ∃ b', findUser (tapEffect store uid now u) uid' = some b' ∧
      b.token_balance ≤ b'.token_balance := by
  have hrew : (0:Int) ≤ TAP_REWARD * u.mining_power :=
    mul_nonneg (by norm_num [TAP_REWARD]) hmpu
  unfold tapEffect
  dsimp only
  cases hr : u.referred_by with
  | none =>
    have hfind : findUser (store.map (tapUpdateRow uid
        (if u.taps < MAX_TAPS_PER_DAY then u.taps + 1 else 1) now
        (TAP_REWARD * u.mining_power))) uid'
          = some (tapUpdateRow uid
              (if u.taps < MAX_TAPS_PER_DAY then u.taps + 1 else 1) now
              (TAP_REWARD * u.mining_power) b) := by
      rw [findUser_map _ (tapUpdateRow_user_id uid _ _ _) store uid', hb,
          Option.map_some']
    refine ⟨_, hfind, ?_⟩
    unfold tapUpdateRow
    split
    · dsimp only
      linarith
    · exact le_refl _
  | some code =>
    have hfind : findUser ((store.map (tapUpdateRow uid
        (if u.taps < MAX_TAPS_PER_DAY then u.taps + 1 else 1) now
        (TAP_REWARD * u.mining_power))).map
          (bonusUpdateRow code (referrerBonus (TAP_REWARD * u.mining_power)))) uid'
          = some (bonusUpdateRow code (referrerBonus (TAP_REWARD * u.mining_power))
              (tapUpdateRow uid
                (if u.taps < MAX_TAPS_PER_DAY then u.taps + 1 else 1) now
                (TAP_REWARD * u.mining_power) b)) := by
      rw [findUser_map _ (bonusUpdateRow_user_id code _) _ uid',
          findUser_map _ (tapUpdateRow_user_id uid _ _ _) store uid', hb,
          Option.map_some', Option.map_some']
    refine ⟨_, hfind, ?_⟩
    have hbon := referrerBonus_nonneg (TAP_REWARD * u.mining_power) hrew
    unfold bonusUpdateRow tapUpdateRow
    repeat' split
    all_goals try dsimp only
    all_goals linarith

theorem walletUpdateRow_user_id (uid : Nat) (addr : String) (a : Account) :
    (if a.user_id == uid then { a with wallet_address := some addr }
     else a).user_id = a.user_id := by
  split <;> rfl

/-- C9: under the data-model invariant that every stored account has
mining_power ≥ 100, no in-scope operation — register/skip, wallet bind,
tap (with its referral credit) or dashboard view — lowers any account's
token_balance. -/
theorem balance_monotone (store : Store) (uid uid' : Nat) (now : Int)
    (addr : String) (b : Account)
    (hmp : ∀ a ∈ store, 100 ≤ a.mining_power)
    (hb : findUser store uid' = some b) :
    (∃ b', findUser (skip store uid now) uid' = some b' ∧
       b.token_balance ≤ b'.token_balance) ∧
    (∃ b', findUser (handle_wallet_address store uid addr true).1 uid' = some b' ∧
       b.token_balance ≤ b'.token_balance) ∧
    (∃ b', findUser (handle_tap store uid now).1 uid' = some b' ∧
       b.token_balance ≤ b'.token_balance) ∧
    (view_dashboard store uid).1 = store := by
  refine ⟨?_, ?_, ?_, rfl⟩
  · by_cases hc : (findUser store uid).isSome
    · rw [skip_of_found store uid now hc]
      exact ⟨b, hb, le_refl _⟩
    · have h : findUser store uid = none := Option.not_isSome_iff_eq_none.mp hc
      have hskip : skip store uid now = store ++ [newAccount uid now] := by
        simp [skip, h]
      rw [hskip]
      exact ⟨b, findUser_append_left hb _, le_refl _⟩
  · by_cases hcond : ((findUser store uid).isSome && store.any
        (fun a => a.user_id != uid && a.wallet_address == some addr)) = true
    · have hdup : handle_wallet_address store uid addr true =
          (store, BindResult.integrityError) := by
        unfold handle_wallet_address
        rw [hcond]
        rfl
      rw [hdup]
      exact ⟨b, hb, le_refl _⟩
    · have hfalse := Bool.eq_false_iff.mpr hcond
      have hred : handle_wallet_address store uid addr true =
          (store.map (fun a =>
            if a.user_id == uid then { a with wallet_address := some addr }
            else a),
           BindResult.success) := by
        unfold handle_wallet_address
        rw [hfalse]
        rfl
      rw [hred]
      have hfind : findUser (store.map (fun a =>
          if a.user_id == uid then { a with wallet_address := some addr }
          else a)) uid'
            = some (if b.user_id == uid then { b with wallet_address := some addr }
                    else b) := by
        rw [findUser_map _ (walletUpdateRow_user_id uid addr) store uid', hb,
            Option.map_some']
      refine ⟨_, hfind, ?_⟩
      split <;> exact le_refl _
  · cases hfind : findUser store uid with
    | none =>
      have hnr : handle_tap store uid now = (store, TapResult.notRegistered) := by
        unfold handle_tap tapRead
        rw [hfind]
      rw [hnr]
      exact ⟨b, hb, le_refl _⟩
    | some u =>
      by_cases helig : tapEligible u now
      · rw [handle_tap_eligible store uid now u hfind helig]
        have hmpu : (0:Int) ≤ u.mining_power :=
          le_trans (by norm_num) (hmp u (findUser_mem hfind))
        exact tapEffect_balance_mono store uid now u b uid' hmpu hb
      · have hrej : handle_tap store uid now =
            (store, TapResult.dailyLimitReached) := by
          unfold handle_tap tapRead
          rw [hfind]
          dsimp only
          exact tapWrite_ineligible store uid now u helig
        rw [hrej]
        exact ⟨b, hb, le_refl _⟩

/-- Witness for C9: the referrer's balance across the referee's tap,
registration, wallet bind and dashboard view. -/
theorem balance_monotone_witness :
    (∃ b', findUser (skip [acctReferrer, acctReferee] 4 100) 3 = some b' ∧
       acctReferrer.token_balance ≤ b'.token_balance) ∧
    (∃ b', findUser
        (handle_wallet_address [acctReferrer, acctReferee] 4 "0xA" true).1 3 =
          some b' ∧
       acctReferrer.token_balance ≤ b'.token_balance) ∧
    (∃ b', findUser (handle_tap [acctReferrer, acctReferee] 4 100).1 3 =
          some b' ∧
       acctReferrer.token_balance ≤ b'.token_balance) ∧
    (view_dashboard [acctReferrer, acctReferee] 4).1 =
      [acctReferrer, acctReferee] :=
  balance_monotone [acctReferrer, acctReferee] 4 3 100 "0xA" acctReferrer
    (by decide) (by decide)

theorem tapUpdateRow_fields (uid : Nat) (nt now tok : Int) (a : Account) :
    (tapUpdateRow uid nt now tok a).user_id = a.user_id ∧
    (tapUpdateRow uid nt now tok a).mining_power = a.mining_power ∧
    (tapUpdateRow uid nt now tok a).wallet_address = a.wallet_address ∧
    (tapUpdateRow uid nt now tok a).referral_code = a.referral_code ∧
    (tapUpdateRow uid nt now tok a).referred_by = a.referred_by ∧
    (tapUpdateRow uid nt now tok a).referral_count = a.referral_count ∧
    (tapUpdateRow uid nt now tok a).joined_telegram = a.joined_telegram ∧
    (tapUpdateRow uid nt now tok a).followed_twitter = a.followed_twitter := by
  unfold tapUpdateRow
  split <;> exact ⟨rfl, rfl, rfl, rfl, rfl, rfl, rfl, rfl⟩

theorem bonusUpdateRow_fields (code : String) (bn : Int) (a : Account) :
    (bonusUpdateRow code bn a).user_id = a.user_id ∧
    (bonusUpdateRow code bn a).mining_power = a.mining_power ∧
    (bonusUpdateRow code bn a).wallet_address = a.wallet_address ∧
    (bonusUpdateRow code bn a).referral_code = a.referral_code ∧
    (bonusUpdateRow code bn a).referred_by = a.referred_by ∧
    (bonusUpdateRow code bn a).referral_count = a.referral_count ∧
    (bonusUpdateRow code bn a).joined_telegram = a.joined_telegram ∧
    (bonusUpdateRow code bn a).followed_twitter = a.followed_twitter ∧
    (bonusUpdateRow code bn a).taps = a.taps ∧
    (bonusUpdateRow code bn a).tap_timestamp = a.tap_timestamp := by
  unfold bonusUpdateRow
  split <;> exact ⟨rfl, rfl, rfl, rfl, rfl, rfl, rfl, rfl, rfl, rfl⟩

/-- C10: a successful tap writes only taps, tap_timestamp and
token_balance of the tapping account, plus the token_balance of the
row holding the tapper's referred_by code when it is set; it never
changes mining_power, wallet_address, referral_code, referred_by,
referral_count, joined_telegram or followed_twitter of any row, never
changes taps or tap_timestamp of any row other than the tapper's (so
the referrer's row may differ in token_balance only), and any row that
is neither the tapper's nor carries the tapper's referred_by code is
left exactly as it was. -/
theorem tap_frame (store : Store) (uid : Nat) (now : Int) (u : Account)
    (r : Int) (hu : findUser store uid = some u)
    (hr : (handle_tap store uid now).2 = TapResult.tapped r) :
    List.Forall₂ (fun a a' : Account =>
        a'.user_id = a.user_id ∧
        a'.mining_power = a.mining_power ∧
        a'.wallet_address = a.wallet_address ∧
        a'.referral_code = a.referral_code ∧
        a'.referred_by = a.referred_by ∧
        a'.referral_count = a.referral_count ∧
        a'.joined_telegram = a.joined_telegram ∧
        a'.followed_twitter = a.followed_twitter ∧
        (a.user_id ≠ uid →
          a'.taps = a.taps ∧ a'.tap_timestamp = a.tap_timestamp) ∧
        (a.user_id ≠ uid ∧
            (u.referred_by = none ∨ a.referral_code ≠ u.referred_by) →
          a' = a))
      store (handle_tap store uid now).1 := by
  have helig : tapEligible u now := by
    by_contra hne
    have hrej : handle_tap store uid now = (store, TapResult.dailyLimitReached) := by
      unfold handle_tap tapRead
      rw [hu]
      dsimp only
      exact tapWrite_ineligible store uid now u hne
    rw [hrej] at hr
    simp at hr
  rw [handle_tap_eligible store uid now u hu helig]
  show List.Forall₂ _ store (tapEffect store uid now u)
  unfold tapEffect
  dsimp only
  cases hrb : u.referred_by with
  | none =>
    apply forall₂_map_self
    intro a _
    obtain ⟨h1, h2, h3, h4, h5, h6, h7, h8⟩ := tapUpdateRow_fields uid
      (if u.taps < MAX_TAPS_PER_DAY then u.taps + 1 else 1) now
      (TAP_REWARD * u.mining_power) a
    refine ⟨h1, h2, h3, h4, h5, h6, h7, h8, ?_, ?_⟩
    · intro hne
      rw [tapUpdateRow_other uid _ now _ a hne]
      exact ⟨rfl, rfl⟩
    · rintro ⟨hne, _⟩
      exact tapUpdateRow_other uid _ now _ a hne
  | some code =>
    dsimp only
    rw [List.map_map]
    apply forall₂_map_self
    intro a _
    obtain ⟨t1, t2, t3, t4, t5, t6, t7, t8⟩ := tapUpdateRow_fields uid
      (if u.taps < MAX_TAPS_PER_DAY then u.taps + 1 else 1) now
      (TAP_REWARD * u.mining_power) a
    obtain ⟨b1, b2, b3, b4, b5, b6, b7, b8, b9, b10⟩ := bonusUpdateRow_fields code
      (referrerBonus (TAP_REWARD * u.mining_power))
      (tapUpdateRow uid (if u.taps < MAX_TAPS_PER_DAY then u.taps + 1 else 1) now
        (TAP_REWARD * u.mining_power) a)
    refine ⟨b1.trans t1, b2.trans t2, b3.trans t3, b4.trans t4, b5.trans t5,
            b6.trans t6, b7.trans t7, b8.trans t8, ?_, ?_⟩
    · intro hne
      constructor
      · show (bonusUpdateRow code _ (tapUpdateRow uid _ now _ a)).taps = a.taps
        rw [b9, tapUpdateRow_other uid _ now _ a hne]
      · show (bonusUpdateRow code _
            (tapUpdateRow uid _ now _ a)).tap_timestamp = a.tap_timestamp
        rw [b10, tapUpdateRow_other uid _ now _ a hne]
    · rintro ⟨hne, hdisj⟩
      have hcode : a.referral_code ≠ some code := by
        cases hdisj with
        | inl h0 => exact absurd h0 (by simp)
        | inr hno => intro hc; exact hno (by rw [hc])
      show bonusUpdateRow code _ (tapUpdateRow uid _ now _ a) = a
      rw [tapUpdateRow_other uid _ now _ a hne, bonusUpdateRow_neg _ _ _ hcode]

/-- Witness for C10: the referee (user 4) taps; the referrer (user 3)
holds the matching code "R". -/
theorem tap_frame_witness :
    List.Forall₂ (fun a a' : Account =>
        a'.user_id = a.user_id ∧
        a'.mining_power = a.mining_power ∧
        a'.wallet_address = a.wallet_address ∧
        a'.referral_code = a.referral_code ∧
        a'.referred_by = a.referred_by ∧
        a'.referral_count = a.referral_count ∧
        a'.joined_telegram = a.joined_telegram ∧
        a'.followed_twitter = a.followed_twitter ∧
        (a.user_id ≠ 4 →
          a'.taps = a.taps ∧ a'.tap_timestamp = a.tap_timestamp) ∧
        (a.user_id ≠ 4 ∧
            (acctReferee.referred_by = none ∨
             a.referral_code ≠ acctReferee.referred_by) →
          a' = a))
      [acctReferrer, acctReferee]
      (handle_tap [acctReferrer, acctReferee] 4 100).1 :=
  tap_frame [acctReferrer, acctReferee] 4 100 acctReferee 100000
    (by decide) (by decide)
